import Mathlib

/-!
Verification of the OAuth2 client helper in src/assets/oauth/p-oauth.js.

The embedding models JavaScript strings as lists of characters (`Str`),
the browser world ($cookies, window.location, $http defaults) as an explicit
`World` record, and each observable side effect as an `Event`.  The promise
returned by `login` is modelled by an `Outcome`: it can resolve, reject,
stay pending forever, or the executor can throw synchronously (Angular's
$q runs the resolver without a try/catch, so a throw escapes `login`).

The browser built-ins `btoa`/`atob` (Latin-1 base64) and
`encodeURIComponent` are implemented faithfully: `btoa` fails (throws,
modelled as `none`) on any character above code point 255.
-/

/-- JavaScript strings are modelled as lists of characters. -/
abbrev Str := List Char

/-- JavaScript truthiness of an optional string: `undefined`/`null` and the
empty string are falsy, every other string is truthy. -/
def truthy : Option Str → Bool
  | some s => !s.isEmpty
  | none => false

/-- JavaScript `s.split(sep)` for a one-character separator: always returns at
least one piece, adjacent separators yield empty pieces. -/
def splitOnChar (c : Char) : Str → List Str
  | [] => [[]]
  | x :: xs =>
    match splitOnChar c xs with
    | [] => [[]]
    | g :: gs => if x = c then [] :: g :: gs else (x :: g) :: gs

/-- JavaScript object property assignment `obj[k] = v`: replaces the value in
place when the key is present, appends otherwise (insertion order kept). -/
def objInsert (k : Str) (v : Option Str) : List (Str × Option Str) → List (Str × Option Str)
  | [] => [(k, v)]
  | (k', v') :: rest => if k' = k then (k, v) :: rest else (k', v') :: objInsert k v rest

/-- JavaScript object property read `obj[k]`: `none` when the property is
absent, `some v` when present (`v` itself may be `none` = `undefined`). -/
def objGet (k : Str) : List (Str × Option Str) → Option (Option Str)
  | [] => none
  | (k', v') :: rest => if k' = k then some v' else objGet k rest

/-! ### Base64 (browser `btoa` / `atob`) -/

/-- The base64 alphabet used by `btoa`. -/
def b64Alphabet : Str :=
  "ABCDEFGHIJKLMNOPQRSTUVWXYZabcdefghijklmnopqrstuvwxyz0123456789+/".data

/-- Character for a six-bit value. -/
def encB64Char (n : Nat) : Char := b64Alphabet.getD n 'A'

/-- Index of a character in the base64 alphabet. -/
def b64Index (c : Char) : Str → Nat
  | [] => 0
  | x :: xs => if x = c then 0 else b64Index c xs + 1

/-- Six-bit value of a base64 character. -/
def decB64Char (c : Char) : Nat := b64Index c b64Alphabet

/-- Membership in the base64 alphabet. -/
def isB64Char (c : Char) : Bool := b64Alphabet.contains c

/-- Pack a byte list into six-bit groups, three bytes at a time. -/
def encodeBytes : List Nat → List Nat
  | [] => []
  | [x] => [x / 4, x % 4 * 16]
  | [x, y] => [x / 4, x % 4 * 16 + y / 16, y % 16 * 4]
  | x :: y :: z :: rest =>
    x / 4 :: (x % 4 * 16 + y / 16) :: (y % 16 * 4 + z / 64) :: z % 64 :: encodeBytes rest

/-- Unpack six-bit groups back into bytes, four groups at a time. -/
def decodeSextets : List Nat → List Nat
  | [a, b] => [a * 4 + b / 16]
  | [a, b, c] => [a * 4 + b / 16, b % 16 * 16 + c / 4]
  | a :: b :: c :: d :: rest =>
    (a * 4 + b / 16) :: (b % 16 * 16 + c / 4) :: (c % 4 * 64 + d) :: decodeSextets rest
  | _ => []

/-- Padding characters appended by `btoa` for a given input byte count. -/
def btoaPadding (nbytes : Nat) : Str :=
  match nbytes % 3 with
  | 1 => ['=', '=']
  | 2 => ['=']
  | _ => []

/-- Browser `btoa`: base64 of a Latin-1 string; throws (here `none`) when a
character is above code point 255. -/
def btoa (s : Str) : Option Str :=
  if s.all (fun c => c.toNat ≤ 255) then
    some ((encodeBytes (s.map Char.toNat)).map encB64Char ++ btoaPadding s.length)
  else none

/-- Strip the trailing padding characters of a base64 string. -/
def dropTrailingEq (s : Str) : Str := (s.reverse.dropWhile (fun c => c = '=')).reverse

/-- Browser `atob`: decode base64; throws (here `none`) on invalid input. -/
def atob (s : Str) : Option Str :=
  if (dropTrailingEq s).all isB64Char && decide ((dropTrailingEq s).length % 4 ≠ 1) then
    some ((decodeSextets ((dropTrailingEq s).map decB64Char)).map Char.ofNat)
  else none

/-! ### `encodeURIComponent` -/

/-- Characters left unescaped by `encodeURIComponent`. -/
def uriUnreserved (c : Char) : Bool :=
  c.isAlphanum || c ∈ (['-', '_', '.', '!', '~', '*', Char.ofNat 39, '(', ')'] : List Char)

/-- Upper-case hexadecimal digit. -/
def hexDigit (n : Nat) : Char := "0123456789ABCDEF".data.getD n '0'

/-- UTF-8 bytes of a unicode scalar value. -/
def utf8Bytes (n : Nat) : List Nat :=
  if n < 128 then [n]
  else if n < 2048 then [192 + n / 64, 128 + n % 64]
  else if n < 65536 then [224 + n / 4096, 128 + n / 64 % 64, 128 + n % 64]
  else [240 + n / 262144, 128 + n / 4096 % 64, 128 + n / 64 % 64, 128 + n % 64]

/-- Browser `encodeURIComponent`: percent-encode every reserved character as
its UTF-8 bytes. -/
def encodeURIComponent (s : Str) : Str :=
  s.flatMap fun c =>
    if uriUnreserved c then [c]
    else (utf8Bytes c.toNat).flatMap fun b => ['%', hexDigit (b / 16), hexDigit (b % 16)]

/-! ### The OAuth instance and the browser world -/

/-- Grant-type constant `TYPE_CLIENT_CREDENTIALS`. -/
def TYPE_CLIENT_CREDENTIALS : Str := "client_credentials".data

/-- Grant-type constant `TYPE_USER_CREDENTIALS`. -/
def TYPE_USER_CREDENTIALS : Str := "password".data

/-- Grant-type constant `TYPE_IMPLICIT`. -/
def TYPE_IMPLICIT : Str := "token".data

/-- Endpoint segment `AUTHORIZE`. -/
def AUTHORIZE : Str := "authorize".data

/-- Endpoint segment `TOKEN`. -/
def TOKEN : Str := "token".data

/-- Default value of the `cookieKey` constructor parameter. -/
def defaultCookieKey : Str := "qOAuth2".data

/-- State of an `OAuth` instance.  `CLIENT_SECRET` is unset until `setSecret`
is called.  The source assigns only `this.accessToken`; it never assigns
`this.tokenType` or `this.scope`, so in JavaScript those instance properties
stay `undefined` — they are carried here as always-`none` fields so that
claims about the in-memory credential can be stated. -/
structure OAuth where
  CLIENT_ID : Str
  SERVER : Str
  COOKIE_KEY : Str
  CLIENT_SECRET : Option Str := none
  accessToken : Option Str := none
  tokenType : Option Str := none
  scope : Option Str := none
deriving DecidableEq

/-- The regex replace `server.replace(/([^\/])$/, '$1/')`: append a slash
when the last character exists and is not a slash. -/
def ensureTrailingSlash (s : Str) : Str :=
  match s.getLast? with
  | some c => if c = '/' then s else s ++ ['/']
  | none => s

/-- Base URL normalization performed by the constructor. -/
def normalizeServer (s : Str) : Str := ensureTrailingSlash s ++ "oauth/".data

/-- The `OAuth` constructor: throws on an empty (falsy) server URL or client
id, otherwise normalizes the base URL and stores the configuration. -/
def OAuth.construct (server clientId cookieKey : Str) :
    Except String OAuth :=
  if server.isEmpty then .error "OAuth: please provide the server URL"
  else if clientId.isEmpty then .error "OAuth: please provide the client ID"
  else .ok { CLIENT_ID := clientId, SERVER := normalizeServer server, COOKIE_KEY := cookieKey }

/-- Read a cookie by key from the $cookies jar. -/
def cookiesGet (cs : List (Str × Str)) (k : Str) : Option Str :=
  match cs with
  | [] => none
  | (k', v) :: rest => if k' = k then some v else cookiesGet rest k

/-- Write a cookie. -/
def cookiesPut (cs : List (Str × Str)) (k v : Str) : List (Str × Str) :=
  match cs with
  | [] => [(k, v)]
  | (k', v') :: rest => if k' = k then (k, v) :: rest else (k', v') :: cookiesPut rest k v

/-- Remove a cookie. -/
def cookiesRemove (cs : List (Str × Str)) (k : Str) : List (Str × Str) :=
  cs.filter fun kv => kv.1 ≠ k

/-- The browser world visible to the component: the cookie jar, the current
location (fragment and full URL), whether the ngRoute module is loadable,
the $http default header state, and a pending full-page navigation. -/
structure World where
  cookies : List (Str × Str)
  locationHash : Str
  locationHref : Str
  hasNgRoute : Bool
  authHeader : Option Str := none
  withCredentials : Bool := false
  navigatedTo : Option Str := none
deriving DecidableEq

/-- Observable side effects of one operation, in order of occurrence. -/
inductive Event where
  | cookieGet (key : Str)
  | hashRead
  | hashClear (viaRouter : Bool)
  | cookiePut (key value : Str)
  | cookieRemove (key : Str)
  | setHeader (token : Str)
  | navigate (url : Str)
  | httpPost (url : Str) (authHeader : Str) (body : List (Str × Str))
  | consoleWarn (msg : String)
  | consoleError (msg : String)
  | reload
deriving DecidableEq

/-- Fate of the promise returned by `login`.  `pending` means neither
`resolve` nor `reject` is ever called; `threw` means the executor threw
synchronously (Angular's $q does not catch resolver exceptions). -/
inductive Outcome where
  | resolved
  | rejected (reason : Option String)
  | pending
  | threw (msg : String)
deriving DecidableEq

/-- Result of a `login` call: promise fate, updated instance, updated world,
and the ordered list of observable effects. -/
structure LoginResult where
  outcome : Outcome
  st : OAuth
  w : World
  events : List Event
deriving DecidableEq

/-! ### The operations of the component -/

/-- The method `decodeHash`: strip one leading slash, split on ampersands,
split each piece on equals signs, and assign piece[0] ↦ piece[1] into a fresh
object.  piece[1] is `undefined` (`none`) when the piece has no equals sign,
and text after a second equals sign is dropped by the indexing. -/
def decodeHash (hash : Str) : List (Str × Option Str) :=
  if hash.isEmpty then []
  else
    let h := if hash.head? = some '/' then hash.tail else hash
    (splitOnChar '&' h).foldl
      (fun obj piece =>
        let fr := splitOnChar '=' piece
        objInsert (fr.headD []) fr[1]? obj)
      []

/-- The string `Bearer ${accessToken}` used for the default header. -/
def bearerHeader (tok : Str) : Str := "Bearer ".data ++ tok

/-- The method `setHttpDefault`: enable credentialed requests and install the
default Authorization header on the shared $http client. -/
def setHttpDefault (w : World) (accessToken : Str) : World :=
  { w with withCredentials := true, authHeader := some (bearerHeader accessToken) }

/-- A JavaScript template literal coerces `undefined` to the text
"undefined". -/
def jsTemplateArg (o : Option Str) : Str :=
  match o with
  | some s => s
  | none => "undefined".data

/-- JavaScript `Array.join(':')` on a list of strings. -/
def joinColon : List Str → Str
  | [] => []
  | [x] => x
  | x :: rest => x ++ ':' :: joinColon rest

/-- The cookie payload written by `saveToken`:
`btoa([access_token, token_type, scope].join(':'))`.  `Array.join` coerces
`undefined` elements to empty strings. -/
def cookieEncode (a t s : Str) : Option Str :=
  btoa (joinColon [a, t, s])

/-- The fields of the object handed to `saveToken` (a decoded fragment or a
token-endpoint response body).  The expiration field is used only to compute
the cookie lifetime, which the cookie jar model does not track. -/
structure TokenData where
  access_token : Option Str
  token_type : Option Str
  scope : Option Str
deriving DecidableEq

/-- The method `saveToken`: write the encoded cookie under the storage key
and install the default header.  `none` models the `btoa` throw on a payload
character above code point 255. -/
def saveToken (st : OAuth) (w : World) (d : TokenData) : Option (World × List Event) :=
  match cookieEncode (d.access_token.getD []) (d.token_type.getD []) (d.scope.getD []) with
  | none => none
  | some cookie =>
    let w1 := { w with cookies := cookiesPut w.cookies st.COOKIE_KEY cookie }
    some (setHttpDefault w1 (jsTemplateArg d.access_token),
      [Event.cookiePut st.COOKIE_KEY cookie, Event.setHeader (jsTemplateArg d.access_token)])

/-- The method `setSecret`: store the client secret and emit the advisory
console warning. -/
def setSecret (st : OAuth) (secret : Str) : OAuth × List Event :=
  ({ st with CLIENT_SECRET := some secret },
   [Event.consoleWarn "In production, you should use TYPE_IMPLICIT when logging in within JavaScript."])

/-- Query string of the Implicit-grant authorization redirect, with the keys
in the insertion order of the request object. -/
def authQuery (clientId href : Str) : Str :=
  "?response_type=".data ++ TYPE_IMPLICIT ++ "&client_id=".data ++ clientId
    ++ "&redirect_uri=".data ++ encodeURIComponent href

/-- The read `hash.access_token` on the decoded fragment of the current URL:
`none` when the property is absent or `undefined`. -/
def hashAccessToken (w : World) : Option Str :=
  (objGet "access_token".data (decodeHash w.locationHash)).join

/-- View of a decoded fragment as the object handed to `saveToken`. -/
def tokenDataOfObj (o : List (Str × Option Str)) : TokenData :=
  { access_token := (objGet "access_token".data o).join
  , token_type := (objGet "token_type".data o).join
  , scope := (objGet "scope".data o).join }

/-- The method `login`.  Walks the source order exactly: the username and
password precondition, the in-memory cache, the cookie, the URL fragment,
the try-mode rejection, the grant-type switch, and the client-secret check.
In the token-exchange branch the source reads the bare identifiers `SERVER`,
`TOKEN`, `CLIENT_ID` and `CLIENT_SECRET`; class bodies are strict mode and no
such bindings exist in any enclosing scope, so evaluating the request config
throws a ReferenceError before `$http` is invoked. -/
def login (st : OAuth) (w : World) (type : Str) (isTry : Bool)
    (username password : Option Str) : LoginResult :=
  if type = TYPE_USER_CREDENTIALS ∧ ¬(truthy username ∧ truthy password) then
    ⟨.rejected (some "Username and password not provided"), st, w, []⟩
  else if truthy st.accessToken then
    ⟨.resolved, st, w, []⟩
  else if truthy (cookiesGet w.cookies st.COOKIE_KEY) then
    match atob ((cookiesGet w.cookies st.COOKIE_KEY).getD []) with
    | none => ⟨.threw "InvalidCharacterError", st, w, [.cookieGet st.COOKIE_KEY]⟩
    | some decoded =>
      ⟨.resolved,
       { st with accessToken := some ((splitOnChar ':' decoded).headD []) },
       setHttpDefault w ((splitOnChar ':' decoded).headD []),
       [.cookieGet st.COOKIE_KEY, .setHeader ((splitOnChar ':' decoded).headD [])]⟩
  else if ¬w.locationHash.isEmpty ∧ truthy (hashAccessToken w) then
    match (saveToken
        { st with accessToken := some ((hashAccessToken w).getD []) }
        { w with locationHash := [] }
        (tokenDataOfObj (decodeHash w.locationHash))) with
    | none =>
      ⟨.threw "InvalidCharacterError",
       { st with accessToken := some ((hashAccessToken w).getD []) },
       { w with locationHash := [] },
       [.cookieGet st.COOKIE_KEY, .hashRead, .hashClear w.hasNgRoute]⟩
    | some (w', evs) =>
      ⟨.resolved,
       { st with accessToken := some ((hashAccessToken w).getD []) },
       w',
       [.cookieGet st.COOKIE_KEY, .hashRead, .hashClear w.hasNgRoute] ++ evs⟩
  else if isTry then
    ⟨.rejected none, st, w, [.cookieGet st.COOKIE_KEY, .hashRead]⟩
  else if type = TYPE_USER_CREDENTIALS ∨ type = TYPE_CLIENT_CREDENTIALS then
    if truthy st.CLIENT_SECRET then
      ⟨.threw "ReferenceError: SERVER is not defined", st, w,
       [.cookieGet st.COOKIE_KEY, .hashRead]⟩
    else
      ⟨.pending, st, w,
       [.cookieGet st.COOKIE_KEY, .hashRead,
        .consoleError "OAuth: please provide the client secret."]⟩
  else if type = TYPE_IMPLICIT then
    ⟨.pending, st,
     { w with navigatedTo := some (st.SERVER ++ AUTHORIZE ++ authQuery st.CLIENT_ID w.locationHref) },
     [.cookieGet st.COOKIE_KEY, .hashRead,
      .navigate (st.SERVER ++ AUTHORIZE ++ authQuery st.CLIENT_ID w.locationHref)]⟩
  else
    ⟨.pending, st, w, [.cookieGet st.COOKIE_KEY, .hashRead]⟩

/-- The method `tryLogin`: `login(type, true)` with no username/password. -/
def tryLogin (st : OAuth) (w : World) (type : Str) : LoginResult :=
  login st w type true none none

/-- The call `login()` with every argument defaulted. -/
def loginDefault (st : OAuth) (w : World) : LoginResult :=
  login st w TYPE_IMPLICIT false none none

/-- The call `tryLogin()` with the grant type defaulted. -/
def tryLoginDefault (st : OAuth) (w : World) : LoginResult :=
  tryLogin st w TYPE_IMPLICIT

/-- The method `logout`: drop the in-memory token, remove the cookie and
reload the page. -/
def logout (st : OAuth) (w : World) : OAuth × World × List Event :=
  ({ st with accessToken := none },
   { w with cookies := cookiesRemove w.cookies st.COOKIE_KEY },
   [Event.cookieRemove st.COOKIE_KEY, Event.reload])

/-! ### Derived definitions used to state the claims -/

/-- Decoding step of the persisted-store login path: `atob(cookie).split(':')`. -/
def cookieDecode (c : Str) : Option (List Str) := (atob c).map (splitOnChar ':')

/-- The text between the first and the second equals sign of a piece, if the
piece has an equals sign at all. -/
def fieldAfter (c : Char) (p : Str) : Option Str :=
  match p.dropWhile (fun x => x != c) with
  | [] => none
  | _ :: r => some (r.takeWhile (fun x => x != c))

/-- Amended description of `decodeHash`: strip at most one leading slash,
split on ampersands, and map the text before the first equals sign of each
piece to the text between its first and second equals signs (text after a
second equals sign is dropped; a piece with no equals sign maps to no
value). -/
def decodeHashAmended (hash : Str) : List (Str × Option Str) :=
  if hash.isEmpty then []
  else
    ((splitOnChar '&' (if hash.head? = some '/' then hash.tail else hash)).foldl
      (fun obj piece =>
        objInsert (piece.takeWhile (fun x => x != '=')) (fieldAfter '=' piece) obj)
      [])

/-- A URL that ends with at least one separator followed by `oauth/`. -/
def endsWithSepOauth (s : Str) : Prop :=
  ∃ p, s = p ++ "/oauth/".data

/-- A URL that ends with exactly one separator followed by `oauth/`: the part
before the final `/oauth/` does not itself end with a separator. -/
def endsWithExactlyOneSep (s : Str) : Prop :=
  ∃ p, s = p ++ "/oauth/".data ∧ p.getLast? ≠ some '/'

/-- The base URL stored by a successful construction. -/
def serverOf : Except String OAuth → Str
  | .ok st => st.SERVER
  | .error _ => []

/-- Whether an event writes the persisted store. -/
def isCookiePut : Event → Bool
  | .cookiePut _ _ => true
  | _ => false

/-- Whether an event is a token-endpoint request. -/
def isHttpPost : Event → Bool
  | .httpPost _ _ _ => true
  | _ => false

/-- Whether an event is a full-page navigation. -/
def isNavigate : Event → Bool
  | .navigate _ => true
  | _ => false

/-- Whether a promise fate is a rejection. -/
def isRejectedOutcome : Outcome → Bool
  | .rejected _ => true
  | _ => false

/-- A concrete freshly constructed instance used by witnesses. -/
def demoInst : OAuth :=
  { CLIENT_ID := "cid".data, SERVER := normalizeServer "http://srv/".data,
    COOKIE_KEY := defaultCookieKey }

/-- The demo instance with an in-memory credential. -/
def demoInstTok : OAuth := { demoInst with accessToken := some "tok1".data }

/-- The persisted encoding of the triple ("tok1", "bearer", "read"). -/
def demoCookieValue : Str :=
  (cookieEncode "tok1".data "bearer".data "read".data).getD []

/-- The instance produced by constructing with server URL `http://x`. -/
def demoConstructed : OAuth :=
  { CLIENT_ID := "c".data, SERVER := normalizeServer "http://x".data,
    COOKIE_KEY := defaultCookieKey }

/-- A browser world with no cookie, no fragment. -/
def demoWorldEmpty : World :=
  { cookies := [], locationHash := [], locationHref := "http://app/".data,
    hasNgRoute := false }

/-- A browser world whose cookie jar holds the demo entry. -/
def demoWorldCookie : World :=
  { cookies := [(defaultCookieKey, demoCookieValue)], locationHash := [],
    locationHref := "http://app/".data, hasNgRoute := false }

/-- A browser world whose URL fragment carries an access token. -/
def demoWorldHash : World :=
  { cookies := [], locationHash := "/access_token=tok2&token_type=bearer".data,
    locationHref := "http://app/".data, hasNgRoute := true }

/-! ### Lemmas about `splitOnChar` -/

/-- A split never yields an empty list of pieces. -/
theorem splitOnChar_ne_nil (c : Char) : ∀ s : Str, splitOnChar c s ≠ []
  | [] => by simp [splitOnChar]
  | x :: xs => by
    simp only [splitOnChar]
    cases h : splitOnChar c xs with
    | nil => simp
    | cons g gs =>
      by_cases hx : x = c <;> simp [hx]

/-- The first piece of a split is the longest separator-free prefix. -/
theorem splitOnChar_headD (c : Char) : ∀ s : Str,
    (splitOnChar c s).headD [] = s.takeWhile (fun x => x != c)
  | [] => by simp [splitOnChar]
  | x :: xs => by
    have ih := splitOnChar_headD c xs
    simp only [splitOnChar]
    cases h : splitOnChar c xs with
    | nil => exact absurd h (splitOnChar_ne_nil c xs)
    | cons g gs =>
      rw [h] at ih
      by_cases hx : x = c
      · subst hx
        simp [List.takeWhile_cons]
      · simp only [if_neg hx, List.headD_cons, List.takeWhile_cons]
        simp only [List.headD_cons] at ih
        simp [bne_iff_ne, hx, ih]

/-- Splitting a string whose head part is separator-free peels that part off. -/
theorem splitOnChar_append (c : Char) : ∀ a rest : Str, (∀ x ∈ a, x ≠ c) →
    splitOnChar c (a ++ c :: rest) = a :: splitOnChar c rest
  | [], rest, _ => by
    simp only [List.nil_append, splitOnChar]
    cases h : splitOnChar c rest with
    | nil => exact absurd h (splitOnChar_ne_nil c rest)
    | cons g gs => simp
  | y :: ys, rest, h => by
    have hy : y ≠ c := h y (by simp)
    have ih := splitOnChar_append c ys rest (fun x hx => h x (by simp [hx]))
    rw [List.cons_append, splitOnChar, ih]
    simp [hy]

/-- Splitting a separator-free string returns it whole. -/
theorem splitOnChar_of_not_mem (c : Char) : ∀ s : Str, (∀ x ∈ s, x ≠ c) →
    splitOnChar c s = [s]
  | [], _ => rfl
  | x :: xs, h => by
    have hx : x ≠ c := h x (by simp)
    have ih := splitOnChar_of_not_mem c xs (fun y hy => h y (by simp [hy]))
    simp only [splitOnChar, ih, if_neg hx]

/-! ### Lemmas about base64 -/

/-- Decoding inverts encoding on six-bit values. -/
theorem decB64Char_encB64Char : ∀ n : Nat, n < 64 → decB64Char (encB64Char n) = n := by
  decide

/-- Encoded characters are in the alphabet and are never padding. -/
theorem encB64Char_props : ∀ n : Nat, n < 64 →
    isB64Char (encB64Char n) = true ∧ (encB64Char n = '=' → False) := by
  decide

/-- Unpacking inverts packing on byte lists. -/
theorem decodeSextets_encodeBytes :
    ∀ l : List Nat, (∀ x ∈ l, x < 256) → decodeSextets (encodeBytes l) = l
  | [], _ => rfl
  | [x], h => by
    have hx : x < 256 := h x (by simp)
    simp only [encodeBytes, decodeSextets, List.cons.injEq, and_true]
    omega
  | [x, y], h => by
    have hx : x < 256 := h x (by simp)
    have hy : y < 256 := h y (by simp)
    simp only [encodeBytes, decodeSextets, List.cons.injEq, and_true]
    exact ⟨by omega, by omega⟩
  | [x, y, z], h => by
    have hx : x < 256 := h x (by simp)
    have hy : y < 256 := h y (by simp)
    have hz : z < 256 := h z (by simp)
    simp only [encodeBytes, decodeSextets, List.cons.injEq, and_true]
    exact ⟨by omega, by omega, by omega⟩
  | x :: y :: z :: w :: rest, h => by
    have hx : x < 256 := h x (by simp)
    have hy : y < 256 := h y (by simp)
    have hz : z < 256 := h z (by simp)
    have ih := decodeSextets_encodeBytes (w :: rest)
      (fun a ha => h a (by simp at ha ⊢; tauto))
    simp only [encodeBytes] at ih ⊢
    simp only [decodeSextets, ih, List.cons.injEq, and_true]
    exact ⟨by omega, by omega, by omega⟩

/-- Packing bytes yields six-bit values. -/
theorem encodeBytes_lt :
    ∀ l : List Nat, (∀ x ∈ l, x < 256) → ∀ y ∈ encodeBytes l, y < 64
  | [], _ => by simp [encodeBytes]
  | [x], h => by
    have hx : x < 256 := h x (by simp)
    simp only [encodeBytes, List.mem_cons, List.not_mem_nil, or_false]
    rintro y (rfl | rfl) <;> omega
  | [x, y], h => by
    have hx : x < 256 := h x (by simp)
    have hy : y < 256 := h y (by simp)
    simp only [encodeBytes, List.mem_cons, List.not_mem_nil, or_false]
    rintro a (rfl | rfl | rfl) <;> omega
  | [x, y, z], h => by
    have hx : x < 256 := h x (by simp)
    have hy : y < 256 := h y (by simp)
    have hz : z < 256 := h z (by simp)
    simp only [encodeBytes, List.mem_cons, List.not_mem_nil, or_false]
    rintro a (rfl | rfl | rfl | rfl) <;> omega
  | x :: y :: z :: w :: rest, h => by
    have hx : x < 256 := h x (by simp)
    have hy : y < 256 := h y (by simp)
    have hz : z < 256 := h z (by simp)
    have ih := encodeBytes_lt (w :: rest)
      (fun a ha => h a (by simp at ha ⊢; tauto))
    simp only [encodeBytes, List.mem_cons] at ih ⊢
    rintro a (rfl | rfl | rfl | rfl | ha)
    · omega
    · omega
    · omega
    · omega
    · exact ih a ha

/-- The number of six-bit groups is never 1 modulo 4. -/
theorem encodeBytes_length_mod :
    ∀ l : List Nat, (encodeBytes l).length % 4 ≠ 1
  | [] => by simp [encodeBytes]
  | [_] => by simp [encodeBytes]
  | [_, _] => by simp [encodeBytes]
  | [_, _, _] => by simp [encodeBytes]
  | _ :: _ :: _ :: w :: rest => by
    have ih := encodeBytes_length_mod (w :: rest)
    simp only [encodeBytes, List.length_cons] at ih ⊢
    omega

/-- The padding is a run of equals signs. -/
theorem btoaPadding_eq_replicate (n : Nat) :
    ∃ k, btoaPadding n = List.replicate k '=' := by
  have h3 : n % 3 = 0 ∨ n % 3 = 1 ∨ n % 3 = 2 := by omega
  rcases h3 with h | h | h
  · exact ⟨0, by simp [btoaPadding, h]⟩
  · exact ⟨2, by simp [btoaPadding, h, List.replicate]⟩
  · exact ⟨1, by simp [btoaPadding, h, List.replicate]⟩

/-- Stripping trailing padding recovers a padding-free prefix. -/
theorem dropTrailingEq_append (xs : Str) (k : Nat) (hxs : ∀ c ∈ xs, c ≠ '=') :
    dropTrailingEq (xs ++ List.replicate k '=') = xs := by
  unfold dropTrailingEq
  rw [List.reverse_append, List.reverse_replicate]
  have hdrop : ∀ m : Nat, ∀ t : Str,
      List.dropWhile (fun c => c = '=') (List.replicate m '=' ++ t) =
        List.dropWhile (fun c => c = '=') t := by
    intro m
    induction m with
    | zero => intro t; simp
    | succ m ihm => intro t; simp [List.replicate_succ, List.dropWhile_cons, ihm]
  rw [hdrop]
  have : List.dropWhile (fun c => c = '=') xs.reverse = xs.reverse := by
    cases hrev : xs.reverse with
    | nil => simp
    | cons a t =>
      have ha : a ∈ xs := by
        have : a ∈ xs.reverse := by simp [hrev]
        simpa using this
      have := hxs a ha
      simp [List.dropWhile_cons, this]
  rw [this, List.reverse_reverse]

/-- Decoding characters inverts encoding characters across a list. -/
theorem map_dec_enc (l : List Nat) (h : ∀ y ∈ l, y < 64) :
    (l.map encB64Char).map decB64Char = l := by
  rw [List.map_map]
  have hcong : ∀ y ∈ l, (decB64Char ∘ encB64Char) y = id y :=
    fun y hy => decB64Char_encB64Char y (h y hy)
  rw [List.map_congr_left hcong, List.map_id]

/-- Rebuilding characters from their code points is the identity. -/
theorem map_ofNat_toNat (s : Str) : (s.map Char.toNat).map Char.ofNat = s := by
  rw [List.map_map]
  have hcong : ∀ c ∈ s, (Char.ofNat ∘ Char.toNat) c = id c :=
    fun c _ => Char.ofNat_toNat c
  rw [List.map_congr_left hcong, List.map_id]

/-- The base64 round trip: `atob` inverts `btoa` on Latin-1 strings. -/
theorem atob_btoa (s : Str) (hs : ∀ c ∈ s, c.toNat ≤ 255) (b : Str)
    (hb : btoa s = some b) : atob b = some s := by
  have hall : s.all (fun c => c.toNat ≤ 255) = true := by
    rw [List.all_eq_true]
    intro c hc
    simpa using hs c hc
  have hbytes : ∀ x ∈ s.map Char.toNat, x < 256 := by
    intro x hx
    rcases List.mem_map.mp hx with ⟨c, hc, rfl⟩
    have := hs c hc
    omega
  have hsex : ∀ y ∈ encodeBytes (s.map Char.toNat), y < 64 :=
    encodeBytes_lt _ hbytes
  have hnoeq : ∀ c ∈ (encodeBytes (s.map Char.toNat)).map encB64Char, c ≠ '=' := by
    intro c hc
    rcases List.mem_map.mp hc with ⟨y, hy, rfl⟩
    exact (encB64Char_props y (hsex y hy)).2
  obtain ⟨k, hk⟩ := btoaPadding_eq_replicate s.length
  have hbval : b = (encodeBytes (s.map Char.toNat)).map encB64Char ++ List.replicate k '=' := by
    unfold btoa at hb
    rw [if_pos hall, hk] at hb
    exact (Option.some.injEq _ _).mp hb.symm
  have hcore : dropTrailingEq b = (encodeBytes (s.map Char.toNat)).map encB64Char := by
    rw [hbval]
    exact dropTrailingEq_append _ k hnoeq
  have hmod : ((encodeBytes (s.map Char.toNat)).map encB64Char).length % 4 ≠ 1 := by
    rw [List.length_map]
    exact encodeBytes_length_mod _
  have hcond : ((dropTrailingEq b).all isB64Char
      && decide ((dropTrailingEq b).length % 4 ≠ 1)) = true := by
    rw [hcore, Bool.and_eq_true]
    constructor
    · rw [List.all_eq_true]
      intro c hc
      rcases List.mem_map.mp hc with ⟨y, hy, rfl⟩
      exact (encB64Char_props y (hsex y hy)).1
    · exact decide_eq_true hmod
  unfold atob
  rw [if_pos hcond, hcore, map_dec_enc _ hsex,
    decodeSextets_encodeBytes _ hbytes, map_ofNat_toNat]

/-- The piece at index 1 of a split is the text between the first and the
second separator. -/
theorem splitOnChar_getElem1 (c : Char) : ∀ p : Str, (splitOnChar c p)[1]? = fieldAfter c p
  | [] => by simp [splitOnChar, fieldAfter]
  | x :: xs => by
    have ih := splitOnChar_getElem1 c xs
    cases h : splitOnChar c xs with
    | nil => exact absurd h (splitOnChar_ne_nil c xs)
    | cons g gs =>
      rw [h] at ih
      by_cases hx : x = c
      · subst hx
        have hg : g = xs.takeWhile (fun y => y != x) := by
          have hh := splitOnChar_headD x xs
          rw [h] at hh
          simpa using hh
        simp only [splitOnChar, h, if_pos rfl]
        simp only [fieldAfter, List.dropWhile_cons]
        simp [hg]
      · have hbx : (x != c) = true := by simp [bne_iff_ne, hx]
        simp only [splitOnChar, h, if_neg hx]
        simp only [fieldAfter, List.dropWhile_cons, hbx, if_pos]
        simpa [fieldAfter] using ih

/-- `decodeHash` computes exactly the amended description. -/
theorem decodeHash_matches_amended_general (hash : Str) :
    decodeHash hash = decodeHashAmended hash := by
  unfold decodeHash decodeHashAmended
  cases hb : hash.isEmpty with
  | true => simp
  | false =>
    simp only [Bool.false_eq_true, if_false]
    apply List.foldl_ext
    intro obj piece _
    rw [splitOnChar_headD, splitOnChar_getElem1]

/-- `Array.join` of three parts in closed form. -/
theorem joinColon_three (a t s : Str) : joinColon [a, t, s] = a ++ ':' :: (t ++ ':' :: s) := rfl

/-! ### The claims -/

/-- Claim C2 (corrected): with no in-memory credential and a persisted entry
encoding ("tok1", "bearer", "read"), `login()` resolves, the in-memory access
token becomes "tok1" and the default header becomes "Bearer tok1".  The
in-memory credential holds only the access token: the token type and the
scope are not retained (see the counterexample). -/
theorem c2_persisted_login_amended (st : OAuth) (w : World)
    (htok : st.accessToken = none)
    (hck : cookiesGet w.cookies st.COOKIE_KEY
      = cookieEncode "tok1".data "bearer".data "read".data) :
    (loginDefault st w).outcome = .resolved ∧
    (loginDefault st w).st.accessToken = some "tok1".data ∧
    (loginDefault st w).w.authHeader = some "Bearer tok1".data := by
  have he : cookieEncode "tok1".data "bearer".data "read".data
      = some "dG9rMTpiZWFyZXI6cmVhZA==".data := by decide
  have hd : atob "dG9rMTpiZWFyZXI6cmVhZA==".data = some "tok1:bearer:read".data := by decide
  have hfull : loginDefault st w =
      ⟨.resolved, { st with accessToken := some "tok1".data },
       setHttpDefault w "tok1".data,
       [.cookieGet st.COOKIE_KEY, .setHeader "tok1".data]⟩ := by
    unfold loginDefault login
    rw [htok, hck, he]
    rw [if_neg (by decide), if_neg (by decide), if_pos (by decide)]
    rw [Option.getD_some, hd]
    rfl
  rw [hfull]
  refine ⟨rfl, rfl, ?_⟩
  simp [setHttpDefault, bearerHeader]

/-- Claim C2, witness: the amended behavior on the concrete demo state. -/
theorem c2_persisted_login_witness :
    (loginDefault demoInst demoWorldCookie).outcome = .resolved ∧
    (loginDefault demoInst demoWorldCookie).st.accessToken = some "tok1".data ∧
    (loginDefault demoInst demoWorldCookie).w.authHeader = some "Bearer tok1".data :=
  c2_persisted_login_amended demoInst demoWorldCookie rfl (by decide)

/-- Claim C2, counterexample to the claim as stated: the same login resolves,
but the in-memory credential does not equal the stored triple — the token
type and the scope fields are never assigned by the code. -/
theorem c2_in_memory_metadata_cex :
    (loginDefault demoInst demoWorldCookie).outcome = Outcome.resolved ∧
    (loginDefault demoInst demoWorldCookie).st.tokenType ≠ some "bearer".data ∧
    (loginDefault demoInst demoWorldCookie).st.scope ≠ some "read".data := by
  decide

/-- Claim C5 (confirmed): with no in-memory credential, no persisted entry
and an empty fragment, `tryLogin()` rejects (the no-credential failure), the
instance and the world are unchanged (in particular no navigation happens),
and the only effects are the store read and the fragment read. -/
theorem c5_try_mode_no_sources (st : OAuth) (w : World)
    (htok : st.accessToken = none)
    (hck : cookiesGet w.cookies st.COOKIE_KEY = none)
    (hhash : w.locationHash = []) :
    tryLoginDefault st w = ⟨.rejected none, st, w, [.cookieGet st.COOKIE_KEY, .hashRead]⟩ := by
  unfold tryLoginDefault tryLogin login
  rw [htok, hck, hhash]
  rw [if_neg (by decide), if_neg (by decide), if_neg (by decide),
    if_neg (fun h => h.1 rfl), if_pos rfl]

/-- Claim C5, witness on the concrete demo state. -/
theorem c5_try_mode_witness :
    tryLoginDefault demoInst demoWorldEmpty =
      ⟨.rejected none, demoInst, demoWorldEmpty,
       [.cookieGet demoInst.COOKIE_KEY, .hashRead]⟩ :=
  c5_try_mode_no_sources demoInst demoWorldEmpty rfl (by decide) rfl

/-- Claim C6 (confirmed): with a truthy in-memory credential, `login()`
resolves immediately, leaves the instance and the world untouched, and
performs no effect at all: the store and the URL are not even read. -/
theorem c6_cached_fast_path (st : OAuth) (w : World)
    (htok : truthy st.accessToken = true) :
    loginDefault st w = ⟨.resolved, st, w, []⟩ := by
  unfold loginDefault login
  rw [if_neg (by decide), if_pos htok]

/-- Claim C6, witness on the concrete demo state with a cached token. -/
theorem c6_cached_fast_path_witness :
    loginDefault demoInstTok demoWorldCookie =
      ⟨.resolved, demoInstTok, demoWorldCookie, []⟩ :=
  c6_cached_fast_path demoInstTok demoWorldCookie (by decide)

/-- Claim C10 (confirmed): a grant type different from all three constants,
with no credential in the cache, the store or the fragment and not in
try-mode, leaves the promise pending forever: the default switch branch
returns without resolving or rejecting, without navigating, and without any
network request. -/
theorem c10_unknown_type_pending (st : OAuth) (w : World) (type : Str)
    (u p : Option Str)
    (ht1 : type ≠ TYPE_CLIENT_CREDENTIALS)
    (ht2 : type ≠ TYPE_USER_CREDENTIALS)
    (ht3 : type ≠ TYPE_IMPLICIT)
    (htok : truthy st.accessToken = false)
    (hck : truthy (cookiesGet w.cookies st.COOKIE_KEY) = false)
    (hfrag : truthy (hashAccessToken w) = false) :
    login st w type false u p = ⟨.pending, st, w, [.cookieGet st.COOKIE_KEY, .hashRead]⟩ := by
  unfold login
  rw [htok, hck, hfrag]
  rw [if_neg (fun h => ht2 h.1), if_neg (by decide), if_neg (by decide),
    if_neg (fun h => by exact absurd h.2 (by decide)), if_neg (by decide),
    if_neg (fun h => h.elim ht2 ht1), if_neg ht3]

/-- Claim C10, witness with the unknown grant type "bogus". -/
theorem c10_unknown_type_witness :
    login demoInst demoWorldEmpty "bogus".data false none none =
      ⟨.pending, demoInst, demoWorldEmpty, [.cookieGet demoInst.COOKIE_KEY, .hashRead]⟩ :=
  c10_unknown_type_pending demoInst demoWorldEmpty "bogus".data none none
    (by decide) (by decide) (by decide) (by decide) (by decide) (by decide)

/-- Claim C4 (corrected): a UserCredentials login with both username and
password but no client secret and no credential source reaches the
client-secret check and then only writes the configuration error to the
console: the promise stays pending forever (it is not rejected), and no
token-endpoint request is issued. -/
theorem c4_missing_secret_amended (st : OAuth) (w : World) (u p : Option Str)
    (hu : truthy u = true) (hp : truthy p = true)
    (hsec : truthy st.CLIENT_SECRET = false)
    (htok : truthy st.accessToken = false)
    (hck : truthy (cookiesGet w.cookies st.COOKIE_KEY) = false)
    (hfrag : truthy (hashAccessToken w) = false) :
    login st w TYPE_USER_CREDENTIALS false u p =
      ⟨.pending, st, w,
       [.cookieGet st.COOKIE_KEY, .hashRead,
        .consoleError "OAuth: please provide the client secret."]⟩ := by
  unfold login
  rw [htok, hck, hfrag, hsec]
  rw [if_neg (fun h => h.2 ⟨hu, hp⟩), if_neg (by decide), if_neg (by decide),
    if_neg (fun h => by exact absurd h.2 (by decide)), if_neg (by decide),
    if_pos (Or.inl rfl), if_neg (by decide)]

/-- Claim C4, witness on the concrete demo state. -/
theorem c4_missing_secret_witness :
    login demoInst demoWorldEmpty TYPE_USER_CREDENTIALS false
        (some "u".data) (some "p".data) =
      ⟨.pending, demoInst, demoWorldEmpty,
       [.cookieGet demoInst.COOKIE_KEY, .hashRead,
        .consoleError "OAuth: please provide the client secret."]⟩ :=
  c4_missing_secret_amended demoInst demoWorldEmpty (some "u".data) (some "p".data)
    (by decide) (by decide) (by decide) (by decide) (by decide) (by decide)

/-- Claim C4, counterexample to the claim as stated: on the concrete input
the returned promise is pending, not rejected — the configuration failure
surfaces only as a console log, though indeed no request is issued. -/
theorem c4_pending_not_rejected_cex :
    (login demoInst demoWorldEmpty TYPE_USER_CREDENTIALS false
        (some "u".data) (some "p".data)).outcome = Outcome.pending ∧
    isRejectedOutcome (login demoInst demoWorldEmpty TYPE_USER_CREDENTIALS false
        (some "u".data) (some "p".data)).outcome = false ∧
    ((login demoInst demoWorldEmpty TYPE_USER_CREDENTIALS false
        (some "u".data) (some "p".data)).events.all fun e => !isHttpPost e) = true ∧
    Event.consoleError "OAuth: please provide the client secret." ∈
      (login demoInst demoWorldEmpty TYPE_USER_CREDENTIALS false
        (some "u".data) (some "p".data)).events := by
  decide

/-- Claim C3 (corrected): `decodeHash` strips at most one leading slash,
splits on ampersands and maps the text before the first equals sign of each
piece to the text between the first and the second equals signs — not to the
whole remainder: `fragment.split('=')[1]` drops everything after a second
equals sign.  The empty input yields the empty mapping. -/
theorem c3_decodeHash_amended_eq (hash : Str) :
    decodeHash hash = decodeHashAmended hash :=
  decodeHash_matches_amended_general hash

/-- Claim C3, counterexample to the claim as stated: a value containing an
equals sign is not kept whole — `decodeHash "k=a=b"` maps "k" to "a", not to
"a=b". -/
theorem c3_equals_truncation_cex :
    decodeHash "k=a=b".data = [("k".data, some "a".data)] ∧
    decodeHash "k=a=b".data ≠ [("k".data, some "a=b".data)] := by
  decide

/-- Claim C7 (corrected): the constructed base URL always ends with at least
one separator followed by `oauth/`, and with exactly one when the input did
not already end with a separator.  An input ending with two or more
separators keeps them all (see the counterexample). -/
theorem c7_normalization_amended (server clientId cookieKey : Str) (st : OAuth)
    (h : OAuth.construct server clientId cookieKey = .ok st) :
    endsWithSepOauth st.SERVER ∧
    (server.getLast? ≠ some '/' → endsWithExactlyOneSep st.SERVER) := by
  by_cases hs : server.isEmpty
  · rw [OAuth.construct, if_pos hs] at h
    exact absurd h (by simp)
  by_cases hc : clientId.isEmpty
  · rw [OAuth.construct, if_neg hs, if_pos hc] at h
    exact absurd h (by simp)
  rw [OAuth.construct, if_neg hs, if_neg hc] at h
  have hst := (Except.ok.inj h).symm
  subst hst
  have hservne : server ≠ [] := fun hnil => hs (by simp [hnil])
  rcases hlast : server.getLast? with _ | ch
  · exact absurd (List.getLast?_eq_none_iff.mp hlast) hservne
  by_cases hch : ch = '/'
  · subst hch
    have hg : server.getLast hservne = '/' := by
      rw [List.getLast?_eq_getLast server hservne] at hlast
      exact Option.some.inj hlast
    have hval : normalizeServer server = server.dropLast ++ "/oauth/".data := by
      rw [normalizeServer, ensureTrailingSlash, hlast]
      show (if ('/' : Char) = '/' then server else server ++ ['/']) ++ "oauth/".data = _
      rw [if_pos rfl]
      conv_lhs => rw [← List.dropLast_append_getLast hservne, hg]
      rw [List.append_assoc]
      rfl
    constructor
    · exact ⟨server.dropLast, hval⟩
    · intro hne
      exact absurd rfl hne
  · have hval : normalizeServer server = server ++ "/oauth/".data := by
      rw [normalizeServer, ensureTrailingSlash, hlast]
      show (if ch = '/' then server else server ++ ['/']) ++ "oauth/".data = _
      rw [if_neg hch, List.append_assoc]
      rfl
    constructor
    · exact ⟨server, hval⟩
    · intro _
      refine ⟨server, hval, ?_⟩
      rw [hlast]
      intro hcontra
      exact hch (Option.some.inj hcontra)

/-- Claim C7, witness: constructing with `http://x` (no trailing separator)
yields a URL ending with exactly one separator and `oauth/`. -/
theorem c7_normalization_witness :
    endsWithSepOauth demoConstructed.SERVER ∧
    endsWithExactlyOneSep demoConstructed.SERVER :=
  ⟨(c7_normalization_amended "http://x".data "c".data defaultCookieKey demoConstructed rfl).1,
   (c7_normalization_amended "http://x".data "c".data defaultCookieKey demoConstructed rfl).2
     (by decide)⟩

/-- Claim C7, counterexample to the claim as stated: the server URL `a//`
already ends with two separators, and construction keeps both, so the result
`a//oauth/` does not end with exactly one separator before `oauth/`. -/
theorem c7_double_slash_cex :
    serverOf (OAuth.construct "a//".data "c".data defaultCookieKey) = "a//oauth/".data ∧
    ¬ endsWithExactlyOneSep ("a//oauth/".data) := by
  constructor
  · rfl
  · rintro ⟨p, hp, hlast⟩
    have happ : (['a', '/'] : Str) ++ "/oauth/".data = p ++ "/oauth/".data := by
      rw [← hp]
      decide
    have hpeq : p = ['a', '/'] := (List.append_cancel_right happ).symm
    rw [hpeq] at hlast
    exact hlast rfl

/-- Claim C8 (corrected): for delimiter-free strings made of characters in
the domain of `btoa` (code points at most 255), decoding the persisted
encoding returns exactly the original triple.  Without the domain condition
the encoding itself throws (see the counterexample). -/
theorem c8_roundtrip_amended (a t s : Str)
    (ha : ∀ x ∈ a, x ≠ ':') (ht : ∀ x ∈ t, x ≠ ':') (hs : ∀ x ∈ s, x ≠ ':')
    (ha2 : ∀ x ∈ a, x.toNat ≤ 255) (ht2 : ∀ x ∈ t, x.toNat ≤ 255)
    (hs2 : ∀ x ∈ s, x.toNat ≤ 255) :
    ∃ e, cookieEncode a t s = some e ∧ cookieDecode e = some [a, t, s] := by
  have hjb : ∀ c ∈ joinColon [a, t, s], c.toNat ≤ 255 := by
    rw [joinColon_three]
    intro c hc
    simp only [List.mem_append, List.mem_cons] at hc
    rcases hc with hc | hc | hc
    · exact ha2 c hc
    · subst hc
      decide
    · rcases hc with hc | hc | hc
      · exact ht2 c hc
      · subst hc
        decide
      · exact hs2 c hc
  have hall : (joinColon [a, t, s]).all (fun c => c.toNat ≤ 255) = true := by
    rw [List.all_eq_true]
    intro c hc
    simpa using hjb c hc
  have hbt : btoa (joinColon [a, t, s]) =
      some ((encodeBytes ((joinColon [a, t, s]).map Char.toNat)).map encB64Char
        ++ btoaPadding (joinColon [a, t, s]).length) := by
    rw [btoa, if_pos hall]
  refine ⟨_, hbt, ?_⟩
  rw [cookieDecode, atob_btoa _ hjb _ hbt, Option.map_some', joinColon_three,
    splitOnChar_append ':' a _ ha, splitOnChar_append ':' t _ ht,
    splitOnChar_of_not_mem ':' s hs]

/-- Claim C8, witness: the round trip on the concrete triple
("tok1", "bearer", "read"). -/
theorem c8_roundtrip_witness :
    ∃ e, cookieEncode "tok1".data "bearer".data "read".data = some e ∧
      cookieDecode e = some ["tok1".data, "bearer".data, "read".data] :=
  c8_roundtrip_amended "tok1".data "bearer".data "read".data
    (by decide) (by decide) (by decide) (by decide) (by decide) (by decide)

/-- Claim C8, counterexample to the claim as stated: the delimiter-free
string made of the single character with code point 256 is outside the
domain of `btoa`, so the encoding throws and no round trip value exists. -/
theorem c8_btoa_domain_cex :
    (∀ x ∈ ([Char.ofNat 256] : Str), x ≠ ':') ∧
    cookieEncode [Char.ofNat 256] [] [] = none := by
  decide

/-- Claim C9 (code bug): with a client secret set, the token-exchange branch
never sends any request.  The request configuration reads the bare names
`SERVER`, `TOKEN`, `CLIENT_ID`, `CLIENT_SECRET` (without `this.`), which are
unbound in the strict-mode class body, so the executor throws a
ReferenceError before `$http` is called; moreover the header template
`Basic${btoa(...)}` lacks the space required by HTTP Basic authentication. -/
theorem c9_exchange_throws_no_request :
    (login ((setSecret demoInst "sec".data).1) demoWorldEmpty TYPE_USER_CREDENTIALS false
        (some "u".data) (some "p".data)).outcome
      = Outcome.threw "ReferenceError: SERVER is not defined" ∧
    ((login ((setSecret demoInst "sec".data).1) demoWorldEmpty TYPE_USER_CREDENTIALS false
        (some "u".data) (some "p".data)).events.all fun e => !isHttpPost e) = true := by
  decide

/-- Claim C1 (corrected): the commit behavior of the credential-setting
paths.  First conjunct, fragment path: the operation rewrites the persisted
entry with the encoded triple and installs the default header, all in the
same operation.  Second conjunct, persisted-store path: the operation leaves
the cookie jar unchanged (it does not rewrite the entry, contrary to the
claim as stated) and installs the default header built from the first field
of the decoded stored entry, so the three locations still agree. -/
theorem c1_commit_credential_amended
    (stB : OAuth) (wB : World) (typeB : Str) (isTryB : Bool) (uB pB : Option Str)
    (v e : Str)
    (stA : OAuth) (wA : World) (typeA : Str) (isTryA : Bool) (uA pA : Option Str)
    (c d : Str) :
    ((¬(typeB = TYPE_USER_CREDENTIALS ∧ ¬(truthy uB = true ∧ truthy pB = true))) →
      stB.accessToken = none →
      truthy (cookiesGet wB.cookies stB.COOKIE_KEY) = false →
      hashAccessToken wB = some v →
      v ≠ [] →
      cookieEncode v
          ((tokenDataOfObj (decodeHash wB.locationHash)).token_type.getD [])
          ((tokenDataOfObj (decodeHash wB.locationHash)).scope.getD []) = some e →
      login stB wB typeB isTryB uB pB =
        ⟨.resolved, { stB with accessToken := some v },
         setHttpDefault
           { wB with
             locationHash := [],
             cookies := cookiesPut wB.cookies stB.COOKIE_KEY e } v,
         [.cookieGet stB.COOKIE_KEY, .hashRead, .hashClear wB.hasNgRoute,
          .cookiePut stB.COOKIE_KEY e, .setHeader v]⟩) ∧
    ((¬(typeA = TYPE_USER_CREDENTIALS ∧ ¬(truthy uA = true ∧ truthy pA = true))) →
      stA.accessToken = none →
      cookiesGet wA.cookies stA.COOKIE_KEY = some c →
      c ≠ [] →
      atob c = some d →
      login stA wA typeA isTryA uA pA =
        ⟨.resolved, { stA with accessToken := some ((splitOnChar ':' d).headD []) },
         setHttpDefault wA ((splitOnChar ':' d).headD []),
         [.cookieGet stA.COOKIE_KEY, .setHeader ((splitOnChar ':' d).headD [])]⟩) := by
  constructor
  · intro hpre htok hck hv hvne henc
    have hne : ¬wB.locationHash.isEmpty = true := by
      intro hem
      have h0 : wB.locationHash = [] := List.isEmpty_iff.mp hem
      rw [hashAccessToken, h0] at hv
      simp [decodeHash, objGet] at hv
    unfold login
    rw [htok, hck]
    rw [if_neg hpre, if_neg (by decide), if_neg (by decide),
      if_pos ⟨hne, by rw [hv]; simp [truthy, hvne]⟩]
    unfold saveToken
    have hat : (tokenDataOfObj (decodeHash wB.locationHash)).access_token = some v := hv
    rw [hv, Option.getD_some, hat, Option.getD_some, henc]
    rfl
  · intro hpre htok hck hcne hatob
    unfold login
    rw [htok, hck]
    rw [if_neg hpre, if_neg (by decide), if_pos (by simp [truthy, hcne]),
      Option.getD_some, hatob]

/-- Claim C1, witness: both paths of the amended commit behavior on concrete
inputs — the fragment path writes the entry encoding ("tok2", "bearer", "")
and sets the header, the store path adopts the stored entry without
rewriting it and sets the header. -/
theorem c1_commit_credential_witness :
    (login demoInst demoWorldHash TYPE_IMPLICIT false none none =
      ⟨.resolved, { demoInst with accessToken := some "tok2".data },
       setHttpDefault
         { demoWorldHash with
           locationHash := [],
           cookies := cookiesPut demoWorldHash.cookies demoInst.COOKIE_KEY
             "dG9rMjpiZWFyZXI6".data } "tok2".data,
       [.cookieGet demoInst.COOKIE_KEY, .hashRead, .hashClear demoWorldHash.hasNgRoute,
        .cookiePut demoInst.COOKIE_KEY "dG9rMjpiZWFyZXI6".data,
        .setHeader "tok2".data]⟩) ∧
    (login demoInst demoWorldCookie TYPE_IMPLICIT false none none =
      ⟨.resolved,
       { demoInst with accessToken := some ((splitOnChar ':' "tok1:bearer:read".data).headD []) },
       setHttpDefault demoWorldCookie ((splitOnChar ':' "tok1:bearer:read".data).headD []),
       [.cookieGet demoInst.COOKIE_KEY,
        .setHeader ((splitOnChar ':' "tok1:bearer:read".data).headD [])]⟩) :=
  ⟨(c1_commit_credential_amended demoInst demoWorldHash TYPE_IMPLICIT false none none
      "tok2".data "dG9rMjpiZWFyZXI6".data
      demoInst demoWorldCookie TYPE_IMPLICIT false none none
      demoCookieValue "tok1:bearer:read".data).1
    (by decide) rfl (by decide) (by decide) (by decide) (by decide),
   (c1_commit_credential_amended demoInst demoWorldHash TYPE_IMPLICIT false none none
      "tok2".data "dG9rMjpiZWFyZXI6".data
      demoInst demoWorldCookie TYPE_IMPLICIT false none none
      demoCookieValue "tok1:bearer:read".data).2
    (by decide) rfl (by decide) (by decide) (by decide)⟩

/-- Claim C1, counterexample to the claim as stated: the persisted-store
login sets the in-memory credential and the header but performs no store
write at all — the cookie jar is untouched and no put event occurs. -/
theorem c1_store_path_no_rewrite_cex :
    demoInst.accessToken = none ∧
    (loginDefault demoInst demoWorldCookie).st.accessToken = some "tok1".data ∧
    (loginDefault demoInst demoWorldCookie).w.cookies = demoWorldCookie.cookies ∧
    ((loginDefault demoInst demoWorldCookie).events.all fun e => !isCookiePut e) = true := by
  decide
